import Mathlib

/-!
Verification of the derived-state computation layer of the Goalden
savings-goal tracker (src/src/App.jsx).

Numbers: currency amounts are JS numbers, i.e. IEEE-754 binary64 values,
so every amount is a rational. For the structural properties (guards,
clamping, bucketing, ordering, grid geometry) the arithmetic is read as
exact rational arithmetic; for the balance fold, whose drift behaviour
is itself under scrutiny, the file additionally models the addition at
machine precision (jsAdd, correctly rounded binary64) and evaluates the
fold under it. Firestore timestamps are modelled by their integer seconds
field. The date key produced in the source by
new Date(seconds * 1000).toISOString().split('T')[0] is the UTC calendar
date of the instant; two instants receive the same key exactly when they
fall on the same UTC day, so the key is modelled by the UTC epoch-day
number floor(seconds / 86400).
-/

/-- A Firestore timestamp as used by the app: only the seconds field is read. -/
structure Timestamp where
  seconds : Int
deriving DecidableEq, Repr

/-- A transaction record: id, description, signed amount, optional timestamp. -/
structure Transaction where
  id : String
  description : String
  amount : Rat
  date : Option Timestamp
deriving DecidableEq, Repr

/-- The savings goal record. -/
structure Goal where
  name : String
  targetAmount : Rat
deriving DecidableEq, Repr

/-- Daily aggregate: signed income and expense sums for one calendar day. -/
structure DailyAggregate where
  income : Rat
  expense : Rat
deriving DecidableEq, Repr

/-- UTC epoch-day of an instant given in seconds: the bucket key that
new Date(s*1000).toISOString().split('T')[0] induces (floor division,
as toISOString works for instants before 1970 as well). -/
def epochDayOfSeconds (s : Int) : Int :=
  Int.fdiv s 86400

/-- App.jsx line 100, transactions.reduce((acc, t) => acc + t.amount, 0),
read with exact rational addition. This is an idealisation: the source
adds JS numbers, i.e. IEEE-754 binary64 values, and the two readings
agree only where double addition is exact (such as integer amounts whose
partial sums stay below 2^53, as in the spec scenario). The fold at
machine precision is computeBalanceDouble below, and the two are proved
apart at concrete inputs. -/
def computeBalance (T : List Transaction) : Rat :=
  T.foldl (fun acc t => acc + t.amount) 0

/-- App.jsx lines 103-106: progress is 0 when the goal is absent or its
targetAmount is falsy (zero / undefined, modelled as 0); otherwise
Math.max(0, Math.min(100, balance / targetAmount * 100)). -/
def progress (balance : Rat) (goal : Option Goal) : Rat :=
  match goal with
  | none => 0
  | some g =>
    if g.targetAmount = 0 then 0
    else max 0 (min 100 (balance / g.targetAmount * 100))

/-- App.jsx line 302: remaining = goal.targetAmount - currentBalance. -/
def remaining (goal : Goal) (currentBalance : Rat) : Rat :=
  goal.targetAmount - currentBalance

/-- App.jsx line 331: the displayed remaining amount Math.max(0, remaining). -/
def remainingDisplay (goal : Goal) (currentBalance : Rat) : Rat :=
  max 0 (remaining goal currentBalance)

/-- The mapping built by dailyData: a JS object used purely as a
dictionary from date key to aggregate (the source only ever reads
dailyData[dateKey]), modelled as a function to Option. -/
def DailyMap : Type := Int → Option DailyAggregate

/-- The empty dictionary. -/
def emptyDaily : DailyMap := fun _ => none

/-- Point update of the dictionary. -/
def updateDaily (m : DailyMap) (k : Int) (v : DailyAggregate) : DailyMap :=
  fun q => if q = k then some v else m q

/-- App.jsx line 551: if (t.amount > 0) income += amount else expense += amount. -/
def addToBucket (a : DailyAggregate) (amt : Rat) : DailyAggregate :=
  if 0 < amt then { a with income := a.income + amt }
  else { a with expense := a.expense + amt }

/-- One iteration of the forEach in App.jsx lines 547-553: the body runs
only when t.date && t.date.seconds is truthy (a timestamp whose seconds
field is 0 is falsy and is skipped); the missing bucket is initialised
to income 0, expense 0 before the signed accumulation. -/
def dailyStep (m : DailyMap) (t : Transaction) : DailyMap :=
  match t.date with
  | none => m
  | some ts =>
    if ts.seconds = 0 then m
    else
      let k := epochDayOfSeconds ts.seconds
      updateDaily m k (addToBucket ((m k).getD ⟨0, 0⟩) t.amount)

/-- App.jsx lines 545-555: the per-day aggregation. -/
def dailyData (T : List Transaction) : DailyMap :=
  T.foldl dailyStep emptyDaily

/-- Does the filter in App.jsx line 498 keep t for date key d:
t.date is truthy and the ISO date key of t.date.seconds equals d. -/
def matchesDate (t : Transaction) (d : Int) : Bool :=
  match t.date with
  | some ts => epochDayOfSeconds ts.seconds == d
  | none => false

/-- The seconds of a transaction timestamp (post-filter every transaction
has one; 0 is an arbitrary default for the total function). -/
def secondsOf (t : Transaction) : Int :=
  (t.date.map Timestamp.seconds).getD 0

/-- The descending-by-seconds order of the comparator
(a, b) => b.date.seconds - a.date.seconds in App.jsx line 498. -/
def byDateDesc (a b : Transaction) : Prop :=
  secondsOf b ≤ secondsOf a

instance : DecidableRel byDateDesc := fun a b =>
  inferInstanceAs (Decidable (secondsOf b ≤ secondsOf a))

instance : IsTotal Transaction byDateDesc :=
  ⟨fun a b => (le_total (secondsOf b) (secondsOf a)).imp id id⟩

instance : IsTrans Transaction byDateDesc :=
  ⟨fun _ _ _ hab hbc => le_trans hbc hab⟩

/-- App.jsx lines 497-499: transactions.filter(t => t.date && key(t) === d)
.sort((a, b) => b.date.seconds - a.date.seconds); the sort is modelled by
a stable sort producing a descending-by-seconds permutation. -/
def filterByDate (T : List Transaction) (d : Int) : List Transaction :=
  (T.filter (fun t => matchesDate t d)).insertionSort byDateDesc

/-- Does the aggregation of App.jsx lines 547-553 count t in bucket d:
t.date truthy, t.date.seconds truthy (nonzero), UTC day equal to d. -/
def inBucket (t : Transaction) (d : Int) : Bool :=
  match t.date with
  | some ts => ts.seconds != 0 && epochDayOfSeconds ts.seconds == d
  | none => false

/-- Amounts of the transactions the aggregation assigns to bucket d. -/
def bucketAmounts (T : List Transaction) (d : Int) : List Rat :=
  (T.filter fun t => inBucket t d).map Transaction.amount

/-- Sum of the positive amounts of a list. -/
def incomeSum (l : List Rat) : Rat :=
  (l.filter fun a => decide (0 < a)).sum

/-- Sum of the non-positive amounts of a list (the else branch of
line 551 adds every amount that is not > 0 to expense). -/
def expenseSum (l : List Rat) : Rat :=
  (l.filter fun a => decide (a ≤ 0)).sum

/-- The effect of one bucket-relevant amount on an optional aggregate:
initialise the missing bucket to income 0, expense 0, then accumulate. -/
def bucketStep (o : Option DailyAggregate) (amt : Rat) : Option DailyAggregate :=
  some (addToBucket (o.getD ⟨0, 0⟩) amt)


-- Calendar view model (App.jsx lines 557-576).

/-- Gregorian leap-year rule, as JS Date month arithmetic implements it. -/
def isLeapYear (y : Int) : Bool :=
  (y % 4 == 0 && y % 100 != 0) || (y % 400 == 0)

/-- Days in month m (1-based) of year y: the value of
new Date(y, m, 0).getDate() in App.jsx line 558 (0-based month m-1 shown). -/
def daysInMonth (y : Int) (m : Nat) : Nat :=
  if m = 2 then (if isLeapYear y then 29 else 28)
  else if m = 4 ∨ m = 6 ∨ m = 9 ∨ m = 11 then 30
  else 31

/-- Days from 1970-01-01 to civil date y-m-d (m, d 1-based), the standard
civil-calendar counting that underlies JS Date values. -/
def daysFromCivil (y : Int) (m d : Nat) : Int :=
  let yAdj : Int := if m ≤ 2 then y - 1 else y
  let era : Int := Int.fdiv yAdj 400
  let yoe : Int := yAdj - era * 400
  let mp : Int := if 2 < m then (m : Int) - 3 else (m : Int) + 9
  let doy : Int := Int.fdiv (153 * mp + 2) 5 + (d : Int) - 1
  let doe : Int := yoe * 365 + Int.fdiv yoe 4 - Int.fdiv yoe 100 + doy
  era * 146097 + doe - 719468

/-- Weekday (Sunday = 0) of the first day of month m (1-based) of year y:
the value of new Date(y, m-1, 1).getDay() in App.jsx line 559
(1970-01-01 was a Thursday, weekday 4). -/
def firstWeekday (y : Int) (m : Nat) : Nat :=
  ((daysFromCivil y m 1 + 4) % 7).toNat

/-- App.jsx lines 561-576: the calendar cell sequence for 0-based month m
of year y. none is an empty padding cell, some j the cell of day j:
startDay leading empty cells, one cell per day, then
(7 - length % 7) % 7 trailing empty cells. -/
def calendarGrid (y : Int) (m : Nat) : List (Option Nat) :=
  let startDay := firstWeekday y (m + 1)
  let days := daysInMonth y (m + 1)
  let cells := List.replicate startDay (none : Option Nat)
    ++ (List.range days).map (fun i => some (i + 1))
  cells ++ List.replicate ((7 - cells.length % 7) % 7) none

-- Day-partition concatenation for the partition property.

/-- The date keys of the dated transactions of T, in order, one per dated
transaction (undated transactions contribute nothing). -/
def keysOf (T : List Transaction) : List Int :=
  T.filterMap (fun t => t.date.map (fun ts => epochDayOfSeconds ts.seconds))

/-- The distinct date keys present among the dated transactions of T. -/
def datesPresent (T : List Transaction) : List Int :=
  (keysOf T).dedup

/-- The concatenation of the per-date filtered lists over the distinct
dates present in T. -/
def dayPartition (T : List Transaction) : List Transaction :=
  ((datesPresent T).map (fun d => filterByDate T d)).flatten

-- Readers of an optional aggregate, with the absent bucket read as zero.

/-- Income of an optional daily aggregate, 0 when the bucket is absent. -/
def getIncome (o : Option DailyAggregate) : Rat :=
  (o.getD ⟨0, 0⟩).income

/-- Expense of an optional daily aggregate, 0 when the bucket is absent. -/
def getExpense (o : Option DailyAggregate) : Rat :=
  (o.getD ⟨0, 0⟩).expense

/-- Follows the wording of the spec, for comparison against the code: the
local calendar day of an instant in a timezone offsetMinutes east of UTC.
The source itself never consults a timezone offset when bucketing; this
definition only serves to state where the spec and the code part ways. -/
def localEpochDay (offsetMinutes : Int) (s : Int) : Int :=
  epochDayOfSeconds (s + offsetMinutes * 60)

-- Concrete sample data (seconds 1714521600 is 2024-05-01T00:00:00Z,
-- epoch day 19844; 1714694400 is 2024-05-03T00:00:00Z).

/-- Income of 50000 on 2024-05-01. -/
def sampleT1 : Transaction := ⟨"t1", "salary", 50000, some ⟨1714521600⟩⟩

/-- Expense of 3000 on 2024-05-01, one hour later. -/
def sampleT2 : Transaction := ⟨"t2", "lunch", -3000, some ⟨1714525200⟩⟩

/-- Income of 10000 on 2024-05-03. -/
def sampleT3 : Transaction := ⟨"t3", "bonus", 10000, some ⟨1714694400⟩⟩

/-- The scenario transaction list of the spec. -/
def scenarioT : List Transaction := [sampleT1, sampleT2, sampleT3]

/-- A transaction with no timestamp. -/
def noDateT : Transaction := ⟨"n1", "undated", 4, none⟩

/-- Does the timestamp of t, when present, have nonzero seconds: true
exactly for the transactions the aggregation does not drop to the
seconds-falsy corner of the guard on App.jsx line 548. -/
def dateSecondsOk (t : Transaction) : Bool :=
  match t.date with
  | some ts => ts.seconds != 0
  | none => true

/-- Counterexample data: income 11 stamped exactly at the epoch
(seconds 0, a falsy timestamp). -/
def cexT1 : Transaction := ⟨"c1", "epoch", 11, some ⟨0⟩⟩

/-- Counterexample data: income 7 two hours into 1970-01-01. -/
def cexT2 : Transaction := ⟨"c2", "later", 7, some ⟨7200⟩⟩

/-- Counterexample data: income 5 stamped exactly at the epoch. -/
def cexU1 : Transaction := ⟨"u1", "epoch", 5, some ⟨0⟩⟩

/-- Counterexample data: income 7 one hour into 1970-01-01. -/
def cexU2 : Transaction := ⟨"u2", "later", 7, some ⟨3600⟩⟩

/-- Counterexample data: income 9 stamped exactly at the epoch. -/
def cexZ : Transaction := ⟨"z1", "epoch", 9, some ⟨0⟩⟩

/-- Counterexample data: income 8 at 2024-05-01T23:30:00Z
(seconds 1714606200), which is already 2024-05-02 in UTC+9. -/
def lateEveningT : Transaction := ⟨"l1", "late", 8, some ⟨1714606200⟩⟩

-- IEEE-754 binary64 model of the JS number addition actually performed
-- by the balance fold of App.jsx line 100. A finite double is a rational
-- m * 2^e with |m| < 2^53; JS addition is the correctly rounded
-- (round-to-nearest, ties-to-even) binary64 sum. The rounding below
-- covers nonzero values in the normal range (no subnormal underflow or
-- overflow handling), which includes every value appearing in the
-- evaluations proved here.

/-- Round a rational to the nearest integer, ties to the even integer. -/
def roundHalfEven (q : ℚ) : ℤ :=
  let f := ⌊q⌋
  let r := q - (f : ℚ)
  if r < 1 / 2 then f
  else if 1 / 2 < r then f + 1
  else if f % 2 = 0 then f else f + 1

/-- Floor of the base-2 logarithm of n / d (n, d positive), by fuelled
halving and doubling; the fuel bounds the exponent magnitude and is
ample for every binary64 value. -/
def floorLog2Nat : ℕ → ℕ → ℕ → ℤ
  | 0, _, _ => 0
  | fuel + 1, n, d =>
    if n < d then floorLog2Nat fuel (2 * n) d - 1
    else if 2 * d ≤ n then floorLog2Nat fuel n (2 * d) + 1
    else 0

/-- Floor of the base-2 logarithm of a positive rational. -/
def floorLog2Q (q : ℚ) : ℤ :=
  floorLog2Nat 4400 q.num.toNat q.den

/-- Binary64 rounding of a positive rational in the normal range: scale
by the unit in the last place at its binade, round to nearest with ties
to even, scale back. -/
def roundB64Pos (q : ℚ) : ℚ :=
  let ulp : ℚ := (2 : ℚ) ^ (floorLog2Q q - 52)
  (roundHalfEven (q / ulp) : ℚ) * ulp

/-- Binary64 rounding of a rational (normal range), extended to zero and
negatives by symmetry. -/
def roundB64 (q : ℚ) : ℚ :=
  if q = 0 then 0
  else if 0 < q then roundB64Pos q
  else - roundB64Pos (-q)

/-- JS number addition: the correctly rounded binary64 sum. -/
def jsAdd (a b : ℚ) : ℚ := roundB64 (a + b)

/-- App.jsx line 100 at machine precision: the reduce fold with the
accumulator carried in binary64, as the JS engine executes it. -/
def computeBalanceDouble (T : List Transaction) : ℚ :=
  T.foldl (fun acc t => jsAdd acc t.amount) 0

/-- The double nearest 0.1 (what parseFloat and the store hold for an
entered 0.1): 3602879701896397 * 2^-55. -/
def dTenth : Transaction :=
  ⟨"f1", "tenth", 3602879701896397 / 36028797018963968, some ⟨1714521600⟩⟩

/-- The double nearest 0.2: 3602879701896397 * 2^-54. -/
def dFifth : Transaction :=
  ⟨"f2", "fifth", 3602879701896397 / 18014398509481984, some ⟨1714521600⟩⟩

/-- Integer amount 2^53, exactly representable in binary64. -/
def dBig : Transaction := ⟨"f3", "big", 9007199254740992, some ⟨1714521600⟩⟩

/-- Integer amount 1. -/
def dOne : Transaction := ⟨"f4", "one", 1, some ⟨1714521600⟩⟩

/-- Integer amount -2^53, exactly representable in binary64. -/
def dBigNeg : Transaction :=
  ⟨"f5", "bigneg", -9007199254740992, some ⟨1714521600⟩⟩


-- Characterisation of the dailyData fold.

theorem dailyStep_apply_of_not_inBucket (m : DailyMap) (t : Transaction) (k : Int)
    (h : inBucket t k = false) : dailyStep m t k = m k := by
  unfold dailyStep inBucket at *
  cases hd : t.date with
  | none => rfl
  | some ts =>
    rw [hd] at h
    by_cases hz : ts.seconds = 0
    · simp [hz]
    · have hk : epochDayOfSeconds ts.seconds ≠ k := by
        intro he
        simp [hz, he] at h
      simp [hz, updateDaily, Ne.symm hk]

theorem dailyStep_apply_of_inBucket (m : DailyMap) (t : Transaction) (k : Int)
    (h : inBucket t k = true) : dailyStep m t k = bucketStep (m k) t.amount := by
  unfold dailyStep inBucket at *
  cases hd : t.date with
  | none => rw [hd] at h; exact absurd h (by simp)
  | some ts =>
    rw [hd] at h
    have hz : ts.seconds ≠ 0 := by
      intro he; simp [he] at h
    have hk : epochDayOfSeconds ts.seconds = k := by
      by_contra he; simp [hz, he] at h
    simp [hz, hk, updateDaily, bucketStep]

theorem foldl_dailyStep_apply (T : List Transaction) (m : DailyMap) (k : Int) :
    (T.foldl dailyStep m) k = (bucketAmounts T k).foldl bucketStep (m k) := by
  induction T generalizing m with
  | nil => simp [bucketAmounts]
  | cons t T ih =>
    rw [List.foldl_cons, ih]
    by_cases hb : inBucket t k
    · rw [dailyStep_apply_of_inBucket m t k hb]
      have : bucketAmounts (t :: T) k = t.amount :: bucketAmounts T k := by
        simp [bucketAmounts, List.filter_cons, hb]
      rw [this, List.foldl_cons]
    · rw [dailyStep_apply_of_not_inBucket m t k (by simpa using hb)]
      have : bucketAmounts (t :: T) k = bucketAmounts T k := by
        simp [bucketAmounts, List.filter_cons, hb]
      rw [this]

theorem incomeSum_cons (a : Rat) (l : List Rat) :
    incomeSum (a :: l) = (if 0 < a then a else 0) + incomeSum l := by
  by_cases h : 0 < a <;> simp [incomeSum, List.filter_cons, h]

theorem expenseSum_cons (a : Rat) (l : List Rat) :
    expenseSum (a :: l) = (if 0 < a then 0 else a) + expenseSum l := by
  by_cases h : 0 < a
  · simp [expenseSum, List.filter_cons, not_le.mpr h, h]
  · simp [expenseSum, List.filter_cons, not_lt.mp h, h]

theorem foldl_bucketStep_some (l : List Rat) (a : DailyAggregate) :
    l.foldl bucketStep (some a)
      = some ⟨a.income + incomeSum l, a.expense + expenseSum l⟩ := by
  induction l generalizing a with
  | nil => simp [incomeSum, expenseSum]
  | cons amt l ih =>
    rw [List.foldl_cons]
    show l.foldl bucketStep (bucketStep (some a) amt) = _
    rw [incomeSum_cons, expenseSum_cons]
    by_cases h : 0 < amt
    · simp only [bucketStep, Option.getD_some, addToBucket, if_pos h, ih]
      rw [Option.some.injEq, DailyAggregate.mk.injEq]
      exact ⟨by ring, by ring⟩
    · simp only [bucketStep, Option.getD_some, addToBucket, if_neg h, ih]
      rw [Option.some.injEq, DailyAggregate.mk.injEq]
      exact ⟨by ring, by ring⟩

/-- The central characterisation: the bucket the fold of App.jsx lines
545-555 leaves at key k is absent exactly when no transaction is counted
there, and otherwise holds the sum of the positive matching amounts as
income and the sum of the non-positive matching amounts as expense. -/
theorem dailyData_apply (T : List Transaction) (k : Int) :
    dailyData T k
      = if bucketAmounts T k = [] then none
        else some ⟨incomeSum (bucketAmounts T k), expenseSum (bucketAmounts T k)⟩ := by
  have h := foldl_dailyStep_apply T emptyDaily k
  rw [dailyData, h]
  cases hl : bucketAmounts T k with
  | nil => simp [emptyDaily]
  | cons amt l =>
    have hstep : bucketStep (emptyDaily k) amt = bucketStep (some ⟨0, 0⟩) amt := rfl
    rw [List.foldl_cons, hstep]
    show l.foldl bucketStep (bucketStep (some ⟨0, 0⟩) amt) = _
    rw [← List.foldl_cons (f := bucketStep), foldl_bucketStep_some]
    simp [incomeSum_cons, expenseSum_cons]

-- Claim theorems.

theorem jsAdd_tenth : jsAdd 0 (3602879701896397 / 36028797018963968 : ℚ)
    = 3602879701896397 / 36028797018963968 := by
  rw [jsAdd]
  norm_num
  rw [roundB64, if_neg (by norm_num), if_pos (by norm_num), roundB64Pos]
  have he : floorLog2Q (3602879701896397 / 36028797018963968 : ℚ) = -4 := by
    rw [floorLog2Q]
    norm_num
    decide
  rw [he]
  norm_num [roundHalfEven]

theorem jsAdd_tenth_fifth :
    jsAdd (3602879701896397 / 36028797018963968 : ℚ)
        (3602879701896397 / 18014398509481984 : ℚ)
      = 1351079888211149 / 4503599627370496 := by
  rw [jsAdd]
  norm_num
  rw [roundB64, if_neg (by norm_num), if_pos (by norm_num), roundB64Pos]
  have he : floorLog2Q (10808639105689191 / 36028797018963968 : ℚ) = -2 := by
    rw [floorLog2Q]
    norm_num
    decide
  rw [he]
  norm_num [roundHalfEven]

theorem jsAdd_big : jsAdd 0 (9007199254740992 : ℚ) = 9007199254740992 := by
  rw [jsAdd]
  norm_num
  rw [roundB64, if_neg (by norm_num), if_pos (by norm_num), roundB64Pos]
  have he : floorLog2Q (9007199254740992 : ℚ) = 53 := by
    rw [floorLog2Q]
    norm_num
    decide
  rw [he]
  norm_num [roundHalfEven]

theorem jsAdd_big_one : jsAdd (9007199254740992 : ℚ) 1 = 9007199254740992 := by
  rw [jsAdd]
  norm_num
  rw [roundB64, if_neg (by norm_num), if_pos (by norm_num), roundB64Pos]
  have he : floorLog2Q (9007199254740993 : ℚ) = 53 := by
    rw [floorLog2Q]
    norm_num
    decide
  rw [he]
  norm_num [roundHalfEven]

theorem jsAdd_big_bigneg :
    jsAdd (9007199254740992 : ℚ) (-9007199254740992) = 0 := by
  rw [jsAdd]
  norm_num [roundB64]

theorem jsAdd_zero_one : jsAdd 0 (1 : ℚ) = 1 := by
  rw [jsAdd]
  norm_num
  rw [roundB64, if_neg (by norm_num), if_pos (by norm_num), roundB64Pos]
  have he : floorLog2Q (1 : ℚ) = 0 := by
    rw [floorLog2Q]
    norm_num
    decide
  rw [he]
  norm_num [roundHalfEven]

theorem jsAdd_one_bigneg :
    jsAdd (1 : ℚ) (-9007199254740992) = -9007199254740991 := by
  rw [jsAdd]
  norm_num
  rw [roundB64, if_neg (by norm_num), if_neg (by norm_num)]
  norm_num
  rw [roundB64Pos]
  have he : floorLog2Q (9007199254740991 : ℚ) = 52 := by
    rw [floorLog2Q]
    norm_num
    decide
  rw [he]
  norm_num [roundHalfEven]

theorem jsAdd_negsmall_big :
    jsAdd (-9007199254740991 : ℚ) 9007199254740992 = 1 := by
  rw [jsAdd]
  norm_num
  rw [roundB64, if_neg (by norm_num), if_pos (by norm_num), roundB64Pos]
  have he : floorLog2Q (1 : ℚ) = 0 := by
    rw [floorLog2Q]
    norm_num
    decide
  rw [he]
  norm_num [roundHalfEven]

/-- Claim C1 (code bug): the source folds the amounts with JS number
addition (App.jsx line 100), which is IEEE-754 binary64 arithmetic - the
very representation section 3 of the spec forbids for this computation -
and under it the claimed drift-freeness and order-independence fail.
Evaluating the fold under correctly rounded binary64 addition: summing
the stored doubles nearest 0.1 and 0.2 does not return the exact sum of
the two amount fields (it returns 0.30000000000000004...); and on the
integer amounts [2^53, 1, -2^53], whose exact sum is 1, the fold
returns 0, while the permuted order [1, -2^53, 2^53] returns 1. -/
theorem computeBalanceDouble_drifts_and_order_dependent :
    computeBalanceDouble [dTenth, dFifth]
        ≠ ([dTenth, dFifth].map Transaction.amount).sum ∧
    ([dBig, dOne, dBigNeg] : List Transaction).Perm [dOne, dBigNeg, dBig] ∧
    computeBalanceDouble [dBig, dOne, dBigNeg] = 0 ∧
    computeBalanceDouble [dOne, dBigNeg, dBig] = 1 ∧
    ([dBig, dOne, dBigNeg].map Transaction.amount).sum = 1 := by
  refine ⟨?_, by decide, ?_, ?_, ?_⟩
  · have h : computeBalanceDouble [dTenth, dFifth]
        = 1351079888211149 / 4503599627370496 := by
      show jsAdd (jsAdd 0 dTenth.amount) dFifth.amount = _
      rw [show dTenth.amount = (3602879701896397 / 36028797018963968 : ℚ) from rfl,
        show dFifth.amount = (3602879701896397 / 18014398509481984 : ℚ) from rfl,
        jsAdd_tenth, jsAdd_tenth_fifth]
    rw [h]
    show _ ≠ dTenth.amount + (dFifth.amount + 0)
    rw [show dTenth.amount = (3602879701896397 / 36028797018963968 : ℚ) from rfl,
      show dFifth.amount = (3602879701896397 / 18014398509481984 : ℚ) from rfl]
    norm_num
  · show jsAdd (jsAdd (jsAdd 0 dBig.amount) dOne.amount) dBigNeg.amount = 0
    rw [show dBig.amount = (9007199254740992 : ℚ) from rfl,
      show dOne.amount = (1 : ℚ) from rfl,
      show dBigNeg.amount = (-9007199254740992 : ℚ) from rfl,
      jsAdd_big, jsAdd_big_one, jsAdd_big_bigneg]
  · show jsAdd (jsAdd (jsAdd 0 dOne.amount) dBigNeg.amount) dBig.amount = 1
    rw [show dOne.amount = (1 : ℚ) from rfl,
      show dBigNeg.amount = (-9007199254740992 : ℚ) from rfl,
      show dBig.amount = (9007199254740992 : ℚ) from rfl,
      jsAdd_zero_one, jsAdd_one_bigneg, jsAdd_negsmall_big]
  · show dBig.amount + (dOne.amount + (dBigNeg.amount + 0)) = 1
    rw [show dBig.amount = (9007199254740992 : ℚ) from rfl,
      show dOne.amount = (1 : ℚ) from rfl,
      show dBigNeg.amount = (-9007199254740992 : ℚ) from rfl]
    norm_num

/-- Claim C2: progress is 0 when the goal is absent or its target amount
is zero (the falsy guard of App.jsx line 104), otherwise it is the
clamped percentage max(0, min(100, balance / target * 100)); in every
case the result lies in the closed interval from 0 to 100 (and is a
rational number, hence finite). -/
theorem progress_zero_cases_and_clamped :
    (∀ B : Rat, progress B none = 0) ∧
    (∀ (B : Rat) (g : Goal), g.targetAmount = 0 → progress B (some g) = 0) ∧
    (∀ (B : Rat) (G : Option Goal), 0 ≤ progress B G ∧ progress B G ≤ 100) ∧
    (∀ (B : Rat) (g : Goal), g.targetAmount ≠ 0 →
      progress B (some g) = max 0 (min 100 (B / g.targetAmount * 100))) := by
  refine ⟨fun B => rfl, ?_, ?_, ?_⟩
  · intro B g h
    simp [progress, h]
  · intro B G
    match G with
    | none => exact ⟨le_refl 0, by norm_num [progress]⟩
    | some g =>
      by_cases h : g.targetAmount = 0
      · simp only [progress, if_pos h]
        exact ⟨le_refl 0, by norm_num⟩
      · simp only [progress, if_neg h]
        exact ⟨le_max_left 0 _, max_le (by norm_num) (min_le_left 100 _)⟩
  · intro B g h
    simp [progress, h]

/-- Witness for C2 at the concrete spec scenarios: absent goal, zero
target, and a balance of 57000 against a target of 100000. -/
theorem progress_zero_cases_and_clamped_witness :
    progress 57000 none = 0 ∧
    progress 57000 (some ⟨"trip", 0⟩) = 0 ∧
    (0 ≤ progress 57000 (some ⟨"trip", 100000⟩) ∧
      progress 57000 (some ⟨"trip", 100000⟩) ≤ 100) ∧
    progress 57000 (some ⟨"trip", 100000⟩)
      = max 0 (min 100 (57000 / 100000 * 100)) :=
  ⟨progress_zero_cases_and_clamped.1 57000,
   progress_zero_cases_and_clamped.2.1 57000 ⟨"trip", 0⟩ rfl,
   progress_zero_cases_and_clamped.2.2.1 57000 (some ⟨"trip", 100000⟩),
   progress_zero_cases_and_clamped.2.2.2 57000 ⟨"trip", 100000⟩ (by norm_num)⟩

/-- Claim C10: the remaining amount shown on the progress card is
max(0, targetAmount - currentBalance); it is never negative, and it is 0
as soon as the balance meets or exceeds the target. -/
theorem remainingDisplay_clamped :
    (∀ (g : Goal) (b : Rat), remainingDisplay g b = max 0 (g.targetAmount - b)) ∧
    (∀ (g : Goal) (b : Rat), 0 ≤ remainingDisplay g b) ∧
    (∀ (g : Goal) (b : Rat), g.targetAmount ≤ b → remainingDisplay g b = 0) :=
  ⟨fun _ _ => rfl,
   fun _ _ => le_max_left 0 _,
   fun _ _ h => max_eq_left (sub_nonpos.mpr h)⟩

/-- Witness for C10: a balance beyond the target leaves remaining 0. -/
theorem remainingDisplay_clamped_witness :
    remainingDisplay ⟨"trip", 100000⟩ 120000 = 0 :=
  remainingDisplay_clamped.2.2 ⟨"trip", 100000⟩ 120000 (by norm_num)

/-- Claim C4: for every transaction list and date, the day filter returns
exactly the transactions whose date key matches (as a permutation of the
filter), sorted by timestamp seconds in descending order, and it returns
the empty list - a valid value, not an error - when nothing matches. -/
theorem filterByDate_exact_sorted_desc :
    ∀ (T : List Transaction) (d : Int),
      (filterByDate T d).Perm (T.filter (fun t => matchesDate t d)) ∧
      List.Sorted byDateDesc (filterByDate T d) ∧
      ((∀ t ∈ T, matchesDate t d = false) → filterByDate T d = []) := by
  intro T d
  refine ⟨List.perm_insertionSort _ _, List.sorted_insertionSort _ _, ?_⟩
  intro h
  have hnil : T.filter (fun t => matchesDate t d) = [] :=
    List.filter_eq_nil_iff.mpr (fun a ha => by simp [h a ha])
  rw [filterByDate, hnil]
  rfl

/-- Witness for C4: the spec scenario of filtering the sample list for
2024-05-02, a day with no transactions, yields the empty list. -/
theorem filterByDate_exact_sorted_desc_witness :
    filterByDate scenarioT (daysFromCivil 2024 5 2) = [] :=
  (filterByDate_exact_sorted_desc scenarioT (daysFromCivil 2024 5 2)).2.2 (by decide)

/-- Claim C5 (amended): for every transaction list and date key with at
least one bucketed transaction, the daily aggregate holds the sum of the
positive bucketed amounts as income and the sum of the non-positive
bucketed amounts as expense, where the bucket collects the transactions
dated that day whose timestamp seconds is nonzero (the truthiness guard
of App.jsx line 548 drops a zero-seconds timestamp); and the concrete
spec scenario holds: the three sample transactions give balance 57000
and the 2024-05-01 aggregate income 50000, expense -3000. -/
theorem dailyAggregate_sums_and_scenario :
    (∀ (T : List Transaction) (d : Int), bucketAmounts T d ≠ [] →
      dailyData T d
        = some ⟨incomeSum (bucketAmounts T d), expenseSum (bucketAmounts T d)⟩) ∧
    computeBalance scenarioT = 57000 ∧
    dailyData scenarioT (daysFromCivil 2024 5 1) = some ⟨50000, -3000⟩ := by
  refine ⟨?_, ?_, ?_⟩
  · intro T d h
    rw [dailyData_apply, if_neg h]
  · norm_num [computeBalance, scenarioT, sampleT1, sampleT2, sampleT3]
  · rw [dailyData_apply]
    have hb : bucketAmounts scenarioT (daysFromCivil 2024 5 1) = [50000, -3000] := by
      decide
    rw [hb, if_neg (List.cons_ne_nil _ _)]
    norm_num [incomeSum, expenseSum, List.filter]

/-- Witness for C5 at the 2024-05-03 bucket of the sample data. -/
theorem dailyAggregate_sums_and_scenario_witness :
    dailyData scenarioT (daysFromCivil 2024 5 3)
      = some ⟨incomeSum (bucketAmounts scenarioT (daysFromCivil 2024 5 3)),
              expenseSum (bucketAmounts scenarioT (daysFromCivil 2024 5 3))⟩ :=
  dailyAggregate_sums_and_scenario.1 scenarioT (daysFromCivil 2024 5 3) (by decide)

/-- Counterexample to C5 as stated: on day 0 (1970-01-01) the list
[cexT1, cexT2] has transactions dated that day with positive amounts 11
and 7, so the claimed income would be 18, but the aggregate holds 7:
the zero-seconds transaction cexT1 is dropped by the truthiness guard. -/
theorem dailyAggregate_sums_claim_cex :
    getIncome (dailyData [cexT1, cexT2] 0)
      ≠ incomeSum ((([cexT1, cexT2] : List Transaction).filter
          (fun t => matchesDate t 0)).map Transaction.amount) := by
  have h1 : bucketAmounts [cexT1, cexT2] 0 = [7] := by decide
  have h2 : (([cexT1, cexT2] : List Transaction).filter
      (fun t => matchesDate t 0)).map Transaction.amount = [11, 7] := by decide
  rw [dailyData_apply, h1, if_neg (List.cons_ne_nil _ _), h2]
  norm_num [getIncome, incomeSum, List.filter]

/-- Claim C9 (amended): the per-day aggregation and the per-day filtered
list agree whenever every dated transaction has a nonzero-seconds
timestamp (the aggregation drops zero-seconds timestamps, the filter
does not): for every date key the aggregate income equals the sum of
the positive amounts of the filtered transactions and the aggregate
expense equals the sum of their non-positive amounts, an absent bucket
reading as zero. -/
theorem dailyData_agrees_with_day_filter :
    ∀ (T : List Transaction) (d : Int),
      (∀ t ∈ T, dateSecondsOk t = true) →
      getIncome (dailyData T d)
        = incomeSum ((filterByDate T d).map Transaction.amount) ∧
      getExpense (dailyData T d)
        = expenseSum ((filterByDate T d).map Transaction.amount) := by
  intro T d h
  have hfil : T.filter (fun t => inBucket t d) = T.filter (fun t => matchesDate t d) := by
    apply List.filter_congr
    intro t ht
    cases hd : t.date with
    | none => simp [inBucket, matchesDate, hd]
    | some ts =>
      have hz := h t ht
      rw [dateSecondsOk, hd] at hz
      have hz2 : ts.seconds ≠ 0 := by simpa using hz
      simp [inBucket, matchesDate, hd, hz2]
  have hba : bucketAmounts T d
      = (T.filter (fun t => matchesDate t d)).map Transaction.amount := by
    rw [bucketAmounts, hfil]
  have hperm : ((filterByDate T d).map Transaction.amount).Perm (bucketAmounts T d) := by
    rw [hba]
    exact (List.perm_insertionSort _ _).map _
  have hinc : incomeSum ((filterByDate T d).map Transaction.amount)
      = incomeSum (bucketAmounts T d) := by
    unfold incomeSum
    exact (hperm.filter _).sum_eq
  have hexp : expenseSum ((filterByDate T d).map Transaction.amount)
      = expenseSum (bucketAmounts T d) := by
    unfold expenseSum
    exact (hperm.filter _).sum_eq
  rw [dailyData_apply]
  by_cases hb : bucketAmounts T d = []
  · have hnil : (filterByDate T d).map Transaction.amount = [] := by
      rw [hb] at hperm
      exact hperm.eq_nil
    simp [hb, hnil, getIncome, getExpense, incomeSum, expenseSum]
  · rw [if_neg hb, hinc, hexp]
    exact ⟨rfl, rfl⟩

/-- Witness for C9 on the sample data at the 2024-05-01 key. -/
theorem dailyData_agrees_with_day_filter_witness :
    getIncome (dailyData scenarioT (daysFromCivil 2024 5 1))
      = incomeSum ((filterByDate scenarioT (daysFromCivil 2024 5 1)).map
          Transaction.amount) ∧
    getExpense (dailyData scenarioT (daysFromCivil 2024 5 1))
      = expenseSum ((filterByDate scenarioT (daysFromCivil 2024 5 1)).map
          Transaction.amount) :=
  dailyData_agrees_with_day_filter scenarioT (daysFromCivil 2024 5 1) (by decide)

/-- Counterexample to C9 as stated: on day 0 the filter keeps the
zero-seconds transaction cexU1 (income 5) together with cexU2 (income
7), so the filtered positive sum is 12, while the aggregate, which
dropped cexU1, holds income 7. -/
theorem dailyData_filter_agreement_cex :
    getIncome (dailyData [cexU1, cexU2] 0)
      ≠ incomeSum ((filterByDate [cexU1, cexU2] 0).map Transaction.amount) := by
  have h1 : bucketAmounts [cexU1, cexU2] 0 = [7] := by decide
  have h2 : (filterByDate [cexU1, cexU2] 0).map Transaction.amount = [7, 5] := by
    decide
  rw [dailyData_apply, h1, if_neg (List.cons_ne_nil _ _), h2]
  norm_num [getIncome, incomeSum, List.filter]

theorem bucketAmounts_append_cons (T U : List Transaction) (t : Transaction) (k : Int) :
    bucketAmounts (T ++ t :: U) k
      = bucketAmounts T k
        ++ (if inBucket t k then [t.amount] else [])
        ++ bucketAmounts U k := by
  by_cases h : inBucket t k <;>
    simp [bucketAmounts, List.filter_append, List.filter_cons, h]

theorem bucketAmounts_append (T U : List Transaction) (k : Int) :
    bucketAmounts (T ++ U) k = bucketAmounts T k ++ bucketAmounts U k := by
  simp [bucketAmounts, List.filter_append]

/-- Claim C3 (amended): the aggregation assigns each transaction whose
timestamp has nonzero seconds to exactly one bucket - the one keyed by
the UTC calendar day of its timestamp (toISOString yields the UTC date;
the local calendar date agrees only at UTC offset zero) - and it
excludes from every bucket any transaction lacking a timestamp or whose
timestamp seconds is 0 (falsy in the guard of App.jsx line 548). -/
theorem dailyData_buckets_by_utc_day :
    (∀ (T U : List Transaction) (t : Transaction),
      (t.date = none ∨ ∃ ts, t.date = some ts ∧ ts.seconds = 0) →
      dailyData (T ++ t :: U) = dailyData (T ++ U)) ∧
    (∀ (T U : List Transaction) (t : Transaction) (ts : Timestamp),
      t.date = some ts → ts.seconds ≠ 0 →
      dailyData (T ++ t :: U) (epochDayOfSeconds ts.seconds) ≠ none ∧
      ∀ k : Int, k ≠ epochDayOfSeconds ts.seconds →
        dailyData (T ++ t :: U) k = dailyData (T ++ U) k) := by
  constructor
  · intro T U t h
    have hib : ∀ k, inBucket t k = false := by
      intro k
      rcases h with hn | ⟨ts, hts, hz⟩
      · simp [inBucket, hn]
      · simp [inBucket, hts, hz]
    funext k
    rw [dailyData_apply, dailyData_apply, bucketAmounts_append_cons, hib k,
      bucketAmounts_append]
    simp
  · intro T U t ts hd hz
    constructor
    · rw [dailyData_apply]
      have hib : inBucket t (epochDayOfSeconds ts.seconds) = true := by
        simp [inBucket, hd, hz]
      have hne : bucketAmounts (T ++ t :: U) (epochDayOfSeconds ts.seconds) ≠ [] := by
        rw [bucketAmounts_append_cons, hib]
        simp
      rw [if_neg hne]
      simp
    · intro k hk
      have hib : inBucket t k = false := by
        simp [inBucket, hd, hz, Ne.symm hk]
      rw [dailyData_apply, dailyData_apply, bucketAmounts_append_cons, hib,
        bucketAmounts_append]
      simp

/-- Witness for C3: the undated transaction noDateT changes no bucket of
the sample list; sampleT1 lands in the 2024-05-01 bucket and leaves the
day-0 bucket untouched. -/
theorem dailyData_buckets_by_utc_day_witness :
    dailyData [sampleT1, noDateT] = dailyData [sampleT1] ∧
    dailyData [sampleT1] (epochDayOfSeconds 1714521600) ≠ none ∧
    dailyData [sampleT1] 0 = dailyData [] 0 :=
  ⟨dailyData_buckets_by_utc_day.1 [sampleT1] [] noDateT (Or.inl rfl),
   (dailyData_buckets_by_utc_day.2 [] [] sampleT1 ⟨1714521600⟩ rfl (by decide)).1,
   (dailyData_buckets_by_utc_day.2 [] [] sampleT1 ⟨1714521600⟩ rfl (by decide)).2
     0 (by decide)⟩

/-- Counterexample to C3 as stated: the transaction cexZ carries a
timestamp (the epoch, seconds 0) yet lands in no bucket, and the bucket
key is the UTC day, not the local one: at 2024-05-01T23:30:00Z the local
calendar day in UTC+9 (offset 540 minutes) is 2024-05-02, but
lateEveningT is bucketed under the UTC day 2024-05-01, and the bucket at
its local day is empty. -/
theorem dailyData_bucketing_claim_cex :
    dailyData [cexZ] = emptyDaily ∧
    localEpochDay 540 1714606200 ≠ epochDayOfSeconds 1714606200 ∧
    dailyData [lateEveningT] (epochDayOfSeconds 1714606200) ≠ none ∧
    dailyData [lateEveningT] (localEpochDay 540 1714606200) = none :=
  ⟨rfl, by decide, by decide, by decide⟩

theorem length_filter_matchesDate (T : List Transaction) (d : Int) :
    (T.filter (fun t => matchesDate t d)).length = (keysOf T).count d := by
  induction T with
  | nil => simp [keysOf]
  | cons t T ih =>
    cases hd : t.date with
    | none =>
      have hm : matchesDate t d = false := by simp [matchesDate, hd]
      simp [List.filter_cons, hm, keysOf, List.filterMap_cons, hd, ih]
    | some ts =>
      have hkeys : keysOf (t :: T) = epochDayOfSeconds ts.seconds :: keysOf T := by
        simp [keysOf, List.filterMap_cons, hd]
      by_cases h : epochDayOfSeconds ts.seconds = d
      · have hm : matchesDate t d = true := by simp [matchesDate, hd, h]
        simp [List.filter_cons, hm, hkeys, List.count_cons, h, ih]
      · have hm : matchesDate t d = false := by simp [matchesDate, hd, h]
        simp [List.filter_cons, hm, hkeys, List.count_cons, h, ih]

theorem length_keysOf (T : List Transaction) :
    (keysOf T).length = (T.filter (fun t => t.date.isSome)).length := by
  induction T with
  | nil => simp [keysOf]
  | cons t T ih =>
    rw [keysOf] at ih
    cases hd : t.date with
    | none => simp [keysOf, List.filterMap_cons, hd, List.filter_cons, ih]
    | some ts => simp [keysOf, List.filterMap_cons, hd, List.filter_cons, ih]

/-- Claim C7 (amended): concatenating the per-date filtered lists over
the distinct dates present in T yields as many transactions as T has
dated transactions: the buckets partition the dated transactions, each
appearing in exactly one bucket, while undated transactions appear in
none (so the total equals the length of T only when every transaction
is dated). -/
theorem dayPartition_counts_dated_transactions :
    ∀ T : List Transaction,
      (dayPartition T).length = (T.filter (fun t => t.date.isSome)).length := by
  intro T
  rw [dayPartition, List.length_flatten, List.map_map]
  have hmap : List.map (List.length ∘ fun d => filterByDate T d) (datesPresent T)
      = List.map (fun d => (keysOf T).count d) (datesPresent T) := by
    apply List.map_congr_left
    intro d _
    show (filterByDate T d).length = _
    rw [filterByDate, List.length_insertionSort, length_filter_matchesDate]
  rw [hmap, datesPresent, List.sum_map_count_dedup_eq_length, length_keysOf]

/-- Counterexample to C7 as stated: a list holding one undated
transaction has cardinality 1, but the concatenation over the dates
present in it is empty. -/
theorem dayPartition_cardinality_cex :
    (dayPartition [noDateT]).length ≠ ([noDateT] : List Transaction).length := by
  decide

theorem calendarGrid_eq (y : Int) (m : Nat) :
    calendarGrid y m
      = List.replicate (firstWeekday y (m + 1)) (none : Option Nat)
        ++ (List.range (daysInMonth y (m + 1))).map (fun i => some (i + 1))
        ++ List.replicate
            ((7 - (firstWeekday y (m + 1) + daysInMonth y (m + 1)) % 7) % 7) none := by
  rw [calendarGrid]
  simp [List.length_append, List.length_replicate, List.length_map,
    List.length_range, List.append_assoc]

theorem calendarGrid_length (y : Int) (m : Nat) :
    (calendarGrid y m).length
      = firstWeekday y (m + 1) + daysInMonth y (m + 1)
        + (7 - (firstWeekday y (m + 1) + daysInMonth y (m + 1)) % 7) % 7 := by
  rw [calendarGrid_eq]
  simp [List.length_append, List.length_replicate, List.length_map, List.length_range]
  omega

/-- Claim C6: for every year and month, the calendar cell sequence has
length divisible by 7; its first firstWeekday cells (Sunday-first
convention) are empty padding; the cell of day j sits at index
firstWeekday + j - 1, so day 1 sits exactly at the index given by the
weekday of the first of the month; every cell past the last day is
empty right-padding completing the final week; and for May 2024, a
month starting on Wednesday, the first 3 cells are empty and day 1 is
the 4th cell. -/
theorem calendarGrid_shape :
    (∀ (y : Int) (m : Nat),
      7 ∣ (calendarGrid y m).length ∧
      (∀ i : Nat, i < firstWeekday y (m + 1) → (calendarGrid y m)[i]? = some none) ∧
      (∀ j : Nat, 1 ≤ j → j ≤ daysInMonth y (m + 1) →
        (calendarGrid y m)[firstWeekday y (m + 1) + (j - 1)]? = some (some j)) ∧
      (∀ i : Nat, firstWeekday y (m + 1) + daysInMonth y (m + 1) ≤ i →
        i < (calendarGrid y m).length → (calendarGrid y m)[i]? = some none)) ∧
    (firstWeekday 2024 5 = 3 ∧
      (calendarGrid 2024 4).take 3 = [none, none, none] ∧
      (calendarGrid 2024 4)[3]? = some (some 1)) := by
  constructor
  · intro y m
    refine ⟨?_, ?_, ?_, ?_⟩
    · rw [calendarGrid_length]
      omega
    · intro i hi
      rw [calendarGrid_eq]
      rw [List.getElem?_append_left (by simp; omega)]
      rw [List.getElem?_append_left (by simpa using hi)]
      simp [List.getElem?_replicate, hi]
    · intro j hj1 hj2
      rw [calendarGrid_eq]
      rw [List.getElem?_append_left (by simp; omega)]
      rw [List.getElem?_append_right (by simp)]
      simp only [List.length_replicate, Nat.add_sub_cancel_left]
      rw [List.getElem?_map, List.getElem?_range (by omega)]
      have hj : j - 1 + 1 = j := by omega
      simp [hj]
    · intro i hge hlt
      rw [calendarGrid_length] at hlt
      rw [calendarGrid_eq]
      rw [List.getElem?_append_right (by simp; omega)]
      simp only [List.length_append, List.length_replicate, List.length_map,
        List.length_range]
      rw [List.getElem?_replicate, if_pos (by omega)]
  · exact ⟨by decide, by decide, by decide⟩

/-- Witness for C6 on May 2024: the length is a multiple of 7, cell 2 is
empty padding, day 15 sits at index firstWeekday + 14, and cell 34 is
empty right-padding. -/
theorem calendarGrid_shape_witness :
    7 ∣ (calendarGrid 2024 4).length ∧
    (calendarGrid 2024 4)[2]? = some none ∧
    (calendarGrid 2024 4)[firstWeekday 2024 5 + (15 - 1)]? = some (some 15) ∧
    (calendarGrid 2024 4)[34]? = some none :=
  ⟨(calendarGrid_shape.1 2024 4).1,
   (calendarGrid_shape.1 2024 4).2.1 2 (by decide),
   (calendarGrid_shape.1 2024 4).2.2.1 15 (by decide) (by decide),
   (calendarGrid_shape.1 2024 4).2.2.2 34 (by decide) (by decide)⟩
